import Mathlib

/-!
Verification of the `ContentTools` document-processing module
(`src/backend/kernel_tools/content_tools.py`) of the Multi-Agent Custom
Automation Engine solution accelerator.

The Python code is shallowly embedded: Python strings are Lean `String`
(or `List Char` where structural reasoning is needed), Python ints are
`Int`, `json.dumps` is embedded as an executable serializer over a small
JSON value type, and the file system / PDF library behind
`extract_text_from_pdf` is an explicit parameter mapping paths to
documents.  Character-class predicates (`isupper`, `strip`, `lower`,
`title`) follow CPython semantics on the ASCII range, which covers every
input appearing in this development.
-/

/-! ## Python character and string primitives -/

/-- Characters removed by Python `str.strip()` with no arguments
(ASCII whitespace: space, tab, newline, carriage return, vertical tab,
form feed). -/
def pyIsSpace (c : Char) : Bool :=
  c = ' ' || c = '\t' || c = '\n' || c = '\r' || c = '\x0b' || c = '\x0c'

/-- Python `str.strip()` on a character list: drop leading and trailing
whitespace. -/
def trimChars (l : List Char) : List Char :=
  ((l.dropWhile pyIsSpace).reverse.dropWhile pyIsSpace).reverse

/-- A character is cased (in the sense CPython uses for `str.isupper`)
when it is an upper- or lower-case letter. -/
def isCased (c : Char) : Bool := c.isUpper || c.isLower

/-- Python `str.isupper()`: true iff the string has at least one cased
character and every cased character is upper-case.  In particular a
string with no cased characters (digits, punctuation) is NOT upper-case. -/
def pyIsUpper (l : List Char) : Bool :=
  l.any isCased && l.all (fun c => !isCased c || c.isUpper)

/-- Python `str.lower()` (ASCII). -/
def pyLower (s : String) : String := String.mk (s.data.map Char.toLower)

/-- Python `str.strip()` on a `String`. -/
def pyStrip (s : String) : String := String.mk (trimChars s.data)

/-- Worker for Python `str.title()`: a cased character is upper-cased when
the previous character was not cased, lower-cased otherwise. -/
def pyTitleChars : Bool → List Char → List Char
  | _, [] => []
  | prevCased, c :: cs =>
    if isCased c then
      (if prevCased then Char.toLower c else Char.toUpper c) :: pyTitleChars true cs
    else
      c :: pyTitleChars false cs

/-- Python `str.title()`. -/
def pyTitle (s : String) : String := String.mk (pyTitleChars false s.data)

/-- Python `str(n)` for an integer. -/
def pyIntStr (i : Int) : String :=
  if i < 0 then "-" ++ Nat.repr i.natAbs else Nat.repr i.natAbs

/-- Python `str.split` with separator `"\n"` (as used by
`text.split('\n')` in `parse_sections`): always returns at least one
piece, and `""` splits to `[""]`. -/
def splitNl : List Char → List (List Char)
  | [] => [[]]
  | c :: cs =>
    if c = '\n' then [] :: splitNl cs
    else
      match splitNl cs with
      | [] => [[c]]
      | l :: ls => (c :: l) :: ls

/-- Substring search used to embed Python `needle in hay`. -/
def containsSub (needle : List Char) : List Char → Bool
  | [] => decide (needle = [])
  | c :: rest => needle.isPrefixOf (c :: rest) || containsSub needle rest

/-- Python `needle in hay` on strings. -/
def containsSubstr (hay needle : String) : Bool := containsSub needle.data hay.data

/-- Does the character list end with the character `c`
(Python `line.endswith(c)`)? -/
def lineEndsWith (l : List Char) (c : Char) : Bool :=
  match l.getLast? with
  | some d => d = c
  | none => false

/-! ## JSON values and `json.dumps`

`json.dumps(..., ensure_ascii=False)` is embedded as an executable
serializer.  The value type is a mutual inductive so that all the
serializers are structurally recursive (hence kernel-reducible). -/

mutual
inductive Json where
  | str (s : String)
  | num (n : Int)
  | arr (elems : JList)
  | obj (fields : JObj)

inductive JList where
  | nil
  | cons (hd : Json) (tl : JList)

inductive JObj where
  | nil
  | cons (key : String) (val : Json) (tl : JObj)
end

/-- Lower-case hexadecimal digit, for `\u00XX` escapes. -/
def hexDigit (n : Nat) : Char :=
  if n < 10 then Char.ofNat (48 + n) else Char.ofNat (87 + n)

/-- CPython `json` string escaping with `ensure_ascii=False`: quote,
backslash and the C0 control characters are escaped, everything else is
emitted verbatim. -/
def escapeChar (c : Char) : List Char :=
  if c = '"' then ['\\', '"']
  else if c = '\\' then ['\\', '\\']
  else if c = '\n' then ['\\', 'n']
  else if c = '\t' then ['\\', 't']
  else if c = '\r' then ['\\', 'r']
  else if c = '\x08' then ['\\', 'b']
  else if c = '\x0c' then ['\\', 'f']
  else if c.toNat < 32 then
    ['\\', 'u', '0', '0', hexDigit (c.toNat / 16), hexDigit (c.toNat % 16)]
  else [c]

/-- JSON rendering of a string literal. -/
def jsonQuote (s : String) : String :=
  String.mk ('"' :: (s.data.map escapeChar).flatten ++ ['"'])

mutual
/-- `json.dumps(v, ensure_ascii=False)` with the default separators
`", "` and `": "`. -/
def jsonDumps : Json → String
  | .str s => jsonQuote s
  | .num n => pyIntStr n
  | .arr xs => "[" ++ jsonDumpsList xs ++ "]"
  | .obj fs => "\x7b" ++ jsonDumpsObj fs ++ "\x7d"

def jsonDumpsList : JList → String
  | .nil => ""
  | .cons x .nil => jsonDumps x
  | .cons x (.cons y ys) => jsonDumps x ++ ", " ++ jsonDumpsList (.cons y ys)

def jsonDumpsObj : JObj → String
  | .nil => ""
  | .cons k v .nil => jsonQuote k ++ ": " ++ jsonDumps v
  | .cons k v (.cons k2 v2 fs) =>
    jsonQuote k ++ ": " ++ jsonDumps v ++ ", " ++ jsonDumpsObj (.cons k2 v2 fs)
end

/-- Indentation prefix used by `json.dumps(..., indent=2)`. -/
def indentStr (lvl : Nat) : String := String.mk (List.replicate (2 * lvl) ' ')

mutual
/-- `json.dumps(v, ensure_ascii=False, indent=2)`: with an indent, the
item separator becomes `","` + newline + indentation and the key
separator stays `": "`. -/
def jsonDumpsInd : Nat → Json → String
  | _, .str s => jsonQuote s
  | _, .num n => pyIntStr n
  | _, .arr .nil => "[]"
  | lvl, .arr (.cons x xs) =>
    "[\n" ++ jsonDumpsIndList (lvl + 1) (.cons x xs) ++ "\n" ++ indentStr lvl ++ "]"
  | _, .obj .nil => "\x7b\x7d"
  | lvl, .obj (.cons k v fs) =>
    "\x7b\n" ++ jsonDumpsIndObj (lvl + 1) (.cons k v fs) ++ "\n" ++ indentStr lvl ++ "\x7d"

def jsonDumpsIndList : Nat → JList → String
  | _, .nil => ""
  | lvl, .cons x .nil => indentStr lvl ++ jsonDumpsInd lvl x
  | lvl, .cons x (.cons y ys) =>
    indentStr lvl ++ jsonDumpsInd lvl x ++ ",\n" ++ jsonDumpsIndList lvl (.cons y ys)

def jsonDumpsIndObj : Nat → JObj → String
  | _, .nil => ""
  | lvl, .cons k v .nil => indentStr lvl ++ jsonQuote k ++ ": " ++ jsonDumpsInd lvl v
  | lvl, .cons k v (.cons k2 v2 fs) =>
    indentStr lvl ++ jsonQuote k ++ ": " ++ jsonDumpsInd lvl v ++ ",\n" ++
      jsonDumpsIndObj lvl (.cons k2 v2 fs)
end

/-- Turn a plain list of JSON values into a `JList`. -/
def toJList : List Json → JList
  | [] => .nil
  | x :: xs => .cons x (toJList xs)

/-! ## SectionSegmenter: `ContentTools.parse_sections`

`parse_sections(text, min_section_length=100)` splits the text on
newlines, classifies each stripped non-empty line as heading or body by
four OR'd heuristics, groups body lines (each re-suffixed with a
newline) under the most recent heading, keeps a section only when its
accumulated content length reaches `min_section_length`, and returns the
JSON encoding of the kept sections. -/

/-- A section under construction: Python dict
`{"title": ..., "content": ...}`. -/
structure PySection where
  title : List Char
  content : List Char
deriving DecidableEq

/-- Heading rule a: `len(line) < 100 and line.isupper()`. -/
def capsRule (line : List Char) : Bool :=
  decide (line.length < 100) && pyIsUpper line

/-- Heading rule b: `len(line) < 80 and line.endswith(':')`. -/
def colonRule (line : List Char) : Bool :=
  decide (line.length < 80) && lineEndsWith line ':'

/-- Heading rule c: `any(line.startswith(p) for p in ["#", "Chapter", "Section"])`. -/
def markRule (line : List Char) : Bool :=
  ["#".data, "Chapter".data, "Section".data].any (fun p => p.isPrefixOf line)

/-- Heading rule d:
`len(line) < 60 and not line.endswith('.') and not line.endswith(',')`. -/
def shortRule (line : List Char) : Bool :=
  decide (line.length < 60) && !lineEndsWith line '.' && !lineEndsWith line ','

/-- The `is_heading` disjunction of `parse_sections`. -/
def is_heading (line : List Char) : Bool :=
  capsRule line || colonRule line || markRule line || shortRule line

/-- The initial section `{"title": "Introduction", "content": ""}`. -/
def introSection : PySection := ⟨"Introduction".data, []⟩

/-- The line loop of `parse_sections`: skip blank lines; on a heading,
flush the current section when its content is long enough and start a
fresh one titled by the heading; otherwise append the stripped line plus
a newline to the current content.  At the end the current section is
flushed under the same length condition. -/
def parseLoop (minLen : Int) : List (List Char) → PySection → List PySection
  | [], cur => if minLen ≤ (cur.content.length : Int) then [cur] else []
  | l :: ls, cur =>
    if (trimChars l).isEmpty then parseLoop minLen ls cur
    else if is_heading (trimChars l) then
      (if minLen ≤ (cur.content.length : Int) then [cur] else []) ++
        parseLoop minLen ls ⟨trimChars l, []⟩
    else
      parseLoop minLen ls ⟨cur.title, cur.content ++ trimChars l ++ ['\n']⟩

/-- The same loop with the length filter removed: every section the loop
finalizes, in document order.  Used to state ordering properties of
`parseLoop`. -/
def docLoop : List (List Char) → PySection → List PySection
  | [], cur => [cur]
  | l :: ls, cur =>
    if (trimChars l).isEmpty then docLoop ls cur
    else if is_heading (trimChars l) then
      cur :: docLoop ls ⟨trimChars l, []⟩
    else
      docLoop ls ⟨cur.title, cur.content ++ trimChars l ++ ['\n']⟩

/-- The list of sections `parse_sections` serializes. -/
def parse_sections_list (text : String) (minLen : Int) : List PySection :=
  parseLoop minLen (splitNl text.data) introSection

/-- All sections of the document in document order, unfiltered. -/
def docSections (text : String) : List PySection :=
  docLoop (splitNl text.data) introSection

/-- JSON object for one section (dict insertion order: title, content). -/
def sectionJson (s : PySection) : Json :=
  .obj (.cons "title" (.str (String.mk s.title))
       (.cons "content" (.str (String.mk s.content)) .nil))

/-- `ContentTools.parse_sections`: returns
`json.dumps(sections, ensure_ascii=False)`. -/
def parse_sections (text : String) (min_section_length : Int) : String :=
  jsonDumps (.arr (toJList ((parse_sections_list text min_section_length).map sectionJson)))

/-! ## TextExtractor: `ContentTools.extract_text_from_pdf`

The file system and PDF library are modelled explicitly: a `FileSystem`
maps a path to the document it holds (`none` when `os.path.exists` is
false), and each page's `get_text()` either yields text or raises.  The
outcome records the returned string together with whether the document
handle was opened and whether `doc.close()` ran before the return. -/

/-- Result of `page.get_text()` for one page: text, or a raised
exception with the given message. -/
inductive PageText where
  | ok (text : String)
  | raises (msg : String)

/-- A PDF document: its ordered pages. -/
structure PdfDoc where
  pages : List PageText

/-- The file system as seen through `os.path.exists` / `fitz.open`. -/
abbrev FileSystem := String → Option PdfDoc

/-- What `extract_text_from_pdf` did: the string it returned, whether it
opened the document, and whether it closed the handle before returning. -/
structure ExtractOutcome where
  result : String
  opened : Bool
  closed : Bool
deriving DecidableEq

/-- The page loop `for page_num in range(len(doc)): text += page.get_text()`:
concatenates page text until a page raises. -/
def extractPages : List PageText → String → Except String String
  | [], acc => .ok acc
  | .ok t :: ps, acc => extractPages ps (acc ++ t)
  | .raises m :: _, _ => .error m

/-- `ContentTools.extract_text_from_pdf`.  Faithful to the source: the
missing-file branch returns the not-found message without opening
anything; on success `doc.close()` runs before `return text`; when a
page raises, the `except` branch returns the error message and the
`doc.close()` line is never reached (`closed := false`). -/
def extract_text_from_pdf (fs : FileSystem) (file_path : String) : ExtractOutcome :=
  match fs file_path with
  | none => ⟨"Error: File not found at " ++ file_path, false, false⟩
  | some doc =>
    match extractPages doc.pages "" with
    | .ok text => ⟨text, true, true⟩
    | .error m => ⟨"Error extracting text from PDF: " ++ m, true, false⟩

/-! ## `ContentTools.summarize_text` -/

/-- First constant fragment of the placeholder message. -/
def placeholderPre : String :=
  "This is a placeholder for text summarization. In a real implementation, " ++
  "this would call the Azure OpenAI service to summarize the input text " ++
  "which is "

/-- Middle constant fragment of the placeholder message. -/
def placeholderMid : String := " characters long to a maximum of "

/-- Final constant fragment of the placeholder message. -/
def placeholderEnd : String := " characters."

/-- `ContentTools.summarize_text`: the text itself when it fits,
otherwise the fixed placeholder naming both lengths. -/
def summarize_text (text : String) (max_length : Int) : String :=
  if (text.length : Int) ≤ max_length then text
  else
    placeholderPre ++ pyIntStr (text.length : Int) ++ placeholderMid ++
      pyIntStr max_length ++ placeholderEnd

/-! ## `ContentTools.get_documents_from_sharepoint` -/

/-- The fixed `example_docs` listing. -/
def exampleDocs : JList :=
  .cons (.obj (.cons "name" (.str "Product_Specifications.pdf")
              (.cons "size" (.str "1.2 MB")
              (.cons "modified" (.str "2025-07-30") .nil))))
  (.cons (.obj (.cons "name" (.str "Technical_Manual.docx")
              (.cons "size" (.str "3.5 MB")
              (.cons "modified" (.str "2025-08-01") .nil))))
  (.cons (.obj (.cons "name" (.str "Project_Plan.xlsx")
              (.cons "size" (.str "0.8 MB")
              (.cons "modified" (.str "2025-08-02") .nil)))) .nil))

/-- `ContentTools.get_documents_from_sharepoint`: ignores the optional
credentials and returns `json.dumps({"site": ..., "library": ...,
"documents": example_docs}, ensure_ascii=False)`. -/
def get_documents_from_sharepoint (site_url library_name : String)
    (username password : Option String) : String :=
  jsonDumps (.obj (.cons "site" (.str site_url)
                  (.cons "library" (.str library_name)
                  (.cons "documents" (.arr exampleDocs) .nil))))

/-- The fixed `example_table` of `extract_tables_from_pdf`. -/
def exampleTable : JList :=
  .cons (.arr (toJList [.str "ID", .str "Name", .str "Department", .str "Role"]))
  (.cons (.arr (toJList [.str "1", .str "John Smith", .str "Engineering", .str "Senior Developer"]))
  (.cons (.arr (toJList [.str "2", .str "Jane Doe", .str "Marketing", .str "Director"]))
  (.cons (.arr (toJList [.str "3", .str "Robert Johnson", .str "Finance", .str "Analyst"])) .nil)))

/-- `ContentTools.extract_tables_from_pdf`: fixed stub payload echoing
the file path. -/
def extract_tables_from_pdf (file_path : String) : String :=
  jsonDumps (.obj (.cons "file" (.str file_path)
                  (.cons "tables"
                    (.arr (.cons (.obj (.cons "page" (.num 1)
                                       (.cons "data" (.arr exampleTable) .nil))) .nil)) .nil)))

/-! ## CapabilityRegistry: `get_all_kernel_functions` and
`generate_tools_json_doc`

The class is modelled as its member table: for each method the data that
`inspect` and the two classmethods read — name, whether it passes
`inspect.isfunction` (the two classmethods are bound methods on the
class, so they do not), whether it carries the `@kernel_function`
marker, whether the string form of its `__annotations__` mentions
`kernel_function` (it never does for this class), the marker's
description, the docstring, and the signature parameters with their type
hints.  `inspect.getmembers` returns members sorted by name. -/

/-- A resolved type hint: either a type object carrying `__name__`
(e.g. `str`, `int`) or a complex typing construct rendered by `str()`. -/
inductive PyTypeHint where
  | named (name : String)
  | complexHint (rendered : String)

/-- One signature parameter and its optional type hint. -/
structure Param where
  name : String
  hint : Option PyTypeHint

/-- One class member as seen by `inspect`. -/
structure Method where
  name : String
  isFunction : Bool
  hasKernelMarker : Bool
  annotationsMentionKernelFunction : Bool
  kernelDescription : Option String
  docstring : Option String
  params : List Param

/-- Code-point comparison of names, as Python `sorted` orders strings. -/
def charListLe : List Char → List Char → Bool
  | [], _ => true
  | _ :: _, [] => false
  | a :: as, b :: bs =>
    if a.toNat = b.toNat then charListLe as bs else decide (a.toNat < b.toNat)

/-- `a <= b` on member names. -/
def nameLe (a b : String) : Bool := charListLe a.data b.data

/-- Insertion step of sorting members by name. -/
def insertMember (m : Method) : List Method → List Method
  | [] => [m]
  | x :: xs => if nameLe m.name x.name then m :: x :: xs else x :: insertMember m xs

/-- Sort members by name (names are unique on this class, so stability
is irrelevant). -/
def sortMembers : List Method → List Method
  | [] => []
  | m :: ms => insertMember m (sortMembers ms)

/-- Does the name start with an underscore (`name.startswith("_")`)? -/
def startsWithUnderscore (name : String) : Bool :=
  match name.data with
  | c :: _ => c = '_'
  | [] => false

/-- `inspect.getmembers(cls, predicate=inspect.isfunction)`: members
sorted by name, restricted to plain functions. -/
def getmembersFunctions (members : List Method) : List Method :=
  (sortMembers members).filter (fun m => m.isFunction)

/-- Retention test of `get_all_kernel_functions`: skip underscore names
and the method itself, keep members with the kernel marker or whose
annotations string mentions `kernel_function`. -/
def kernelFnPred (m : Method) : Bool :=
  !(startsWithUnderscore m.name || m.name == "get_all_kernel_functions") &&
    (m.hasKernelMarker || m.annotationsMentionKernelFunction)

/-- `ContentTools.get_all_kernel_functions`: name-keyed dictionary (in
iteration order) of the retained members. -/
def get_all_kernel_functions (members : List Method) : List (String × Method) :=
  ((getmembersFunctions members).filter kernelFnPred).map (fun m => (m.name, m))

/-- Retention test of `generate_tools_json_doc`: skip underscore names
and the method itself, keep members with the kernel marker. -/
def toolPred (m : Method) : Bool :=
  !(startsWithUnderscore m.name || m.name == "generate_tools_json_doc") &&
    m.hasKernelMarker

/-- Parameter type derivation: default `"string"`; a hint with a
`__name__` contributes `__name__.lower()`; a complex hint is rendered,
lower-cased and collapsed onto `int` / `float` / `boolean` / `string`. -/
def paramTypeOf (hint : Option PyTypeHint) : String :=
  match hint with
  | none => "string"
  | some (.named n) => pyLower n
  | some (.complexHint r) =>
    if containsSubstr (pyLower r) "int" then "int"
    else if containsSubstr (pyLower r) "float" then "float"
    else if containsSubstr (pyLower r) "bool" then "boolean"
    else "string"

/-- `param_name.replace("_", " ").title()`. -/
def paramTitle (name : String) : String :=
  pyTitle (String.mk (name.data.map (fun c => if c = '_' then ' ' else c)))

/-- Schema dict for one parameter (insertion order: description, title,
type). -/
def paramSchemaJson (p : Param) : Json :=
  .obj (.cons "description" (.str p.name)
       (.cons "title" (.str (paramTitle p.name))
       (.cons "type" (.str (paramTypeOf p.hint)) .nil)))

/-- `args_dict` as a JSON object: one entry per parameter, skipping the
receiver names `cls` and `self`. -/
def argsObj : List Param → JObj
  | [] => .nil
  | p :: ps =>
    if p.name == "cls" || p.name == "self" then argsObj ps
    else .cons p.name (paramSchemaJson p) (argsObj ps)

/-- `str.replace('"', "'")` applied to the arguments JSON. -/
def quoteToApos (s : String) : String :=
  String.mk (s.data.map (fun c => if c = '"' then Char.ofNat 39 else c))

/-- Operation description: the kernel marker's description when present
and non-empty (Python truthiness), else the stripped docstring, else
empty. -/
def methodDescription (m : Method) : String :=
  let fromDoc :=
    match m.docstring with
    | some ds => pyStrip ds
    | none => ""
  match m.kernelDescription with
  | some d => if d == "" then fromDoc else d
  | none => fromDoc

/-- One `tool_entry` dict (insertion order: agent, function,
description, arguments). -/
structure ToolEntry where
  agent : String
  function : String
  description : String
  arguments : String
deriving DecidableEq

/-- Build the entry for one retained member. -/
def mkEntry (agent : String) (m : Method) : ToolEntry :=
  { agent := agent
    function := m.name
    description := methodDescription m
    arguments := quoteToApos (jsonDumps (.obj (argsObj m.params))) }

/-- The `tools_list` built by `generate_tools_json_doc`. -/
def generate_tools_list (agent : String) (members : List Method) : List ToolEntry :=
  ((getmembersFunctions members).filter toolPred).map (mkEntry agent)

/-- JSON object for one tool entry. -/
def toolEntryJson (e : ToolEntry) : Json :=
  .obj (.cons "agent" (.str e.agent)
       (.cons "function" (.str e.function)
       (.cons "description" (.str e.description)
       (.cons "arguments" (.str e.arguments) .nil))))

/-- `ContentTools.generate_tools_json_doc`: the tools list rendered with
`json.dumps(..., ensure_ascii=False, indent=2)`. -/
def generate_tools_json_doc (agent : String) (members : List Method) : String :=
  jsonDumpsInd 0 (.arr (toJList ((generate_tools_list agent members).map toolEntryJson)))

/-! ## The concrete `ContentTools` class

Members in declaration order.  The two classmethods are reported by
`inspect.getmembers` as bound methods, not plain functions, so they fail
the `inspect.isfunction` predicate; their name-based skips in the two
generators are additionally modelled.  Inherited underscore members
(`__init__`, ...) are excluded by the underscore test in both consumers
and are omitted from the table.  `agent_name` is a plain attribute, not
a function. -/

/-- `AgentType.CONTENT_PROCESSING.value`, the value the repository's
tests install for `ContentTools.agent_name` (the `models` module owning
the enum is outside the sources under verification). -/
def contentToolsAgent : String := "Content_Processing_Agent"

/-- `ContentTools.extract_text_from_pdf` as a class member. -/
def extractTextMember : Method :=
  { name := "extract_text_from_pdf"
    isFunction := true
    hasKernelMarker := true
    annotationsMentionKernelFunction := false
    kernelDescription := some "Extract text content from a PDF document."
    docstring := some ("\n        Extract all text content from a PDF document.\n        \n        Args:\n            file_path: The path to the PDF file to extract text from\n            \n        Returns:\n            The extracted text content from all pages\n        ")
    params := [⟨"file_path", some (.named "str")⟩] }

/-- `ContentTools.parse_sections` as a class member. -/
def parseSectionsMember : Method :=
  { name := "parse_sections"
    isFunction := true
    hasKernelMarker := true
    annotationsMentionKernelFunction := false
    kernelDescription := some "Parse a document into logical sections based on headings and structure."
    docstring := some ("\n        Parse a document text into logical sections based on headings and structure.\n        \n        Args:\n            text: The document text to parse\n            min_section_length: Minimum character length for a section to be considered valid\n            \n        Returns:\n            JSON string containing the identified sections with titles and content\n        ")
    params := [⟨"text", some (.named "str")⟩, ⟨"min_section_length", some (.named "int")⟩] }

/-- `ContentTools.summarize_text` as a class member. -/
def summarizeTextMember : Method :=
  { name := "summarize_text"
    isFunction := true
    hasKernelMarker := true
    annotationsMentionKernelFunction := false
    kernelDescription := some "Summarize text content to a specified length."
    docstring := some ("\n        Summarize text content to a specified maximum length.\n        Note: This is a placeholder. In a real implementation, this would use an LLM to create the summary.\n        \n        Args:\n            text: The text to summarize\n            max_length: Maximum length for the summary in characters\n            \n        Returns:\n            Summarized text\n        ")
    params := [⟨"text", some (.named "str")⟩, ⟨"max_length", some (.named "int")⟩] }

/-- `ContentTools.get_documents_from_sharepoint` as a class member. -/
def sharepointMember : Method :=
  { name := "get_documents_from_sharepoint"
    isFunction := true
    hasKernelMarker := true
    annotationsMentionKernelFunction := false
    kernelDescription := some "Connect to SharePoint and retrieve documents from a specified library"
    docstring := some ("\n        Connect to SharePoint and retrieve documents from a specified document library.\n        Note: This is a placeholder. In a real implementation, this would use Microsoft Graph API.\n        \n        Args:\n            site_url: The SharePoint site URL\n            library_name: The document library name\n            username: Optional username for authentication\n            password: Optional password for authentication\n            \n        Returns:\n            JSON string containing the list of documents found\n        ")
    params := [⟨"site_url", some (.named "str")⟩, ⟨"library_name", some (.named "str")⟩,
               ⟨"username", some (.named "str")⟩, ⟨"password", some (.named "str")⟩] }

/-- `ContentTools.extract_tables_from_pdf` as a class member. -/
def extractTablesMember : Method :=
  { name := "extract_tables_from_pdf"
    isFunction := true
    hasKernelMarker := true
    annotationsMentionKernelFunction := false
    kernelDescription := some "Extract tables from a PDF document as structured data"
    docstring := some ("\n        Extract tables from a PDF document and convert them to structured data.\n        Note: This is a placeholder. In a real implementation, this would use a PDF table extraction library.\n        \n        Args:\n            file_path: The path to the PDF file\n            \n        Returns:\n            JSON string containing the extracted tables\n        ")
    params := [⟨"file_path", some (.named "str")⟩] }

/-- `ContentTools.get_all_kernel_functions` as a class member: a bound
classmethod, so `inspect.isfunction` is false; it carries no kernel
marker and its rendered annotations never mention `kernel_function`.
Its description and parameters are never consulted (it is skipped by
name and by the predicate). -/
def getAllKernelFunctionsMember : Method :=
  { name := "get_all_kernel_functions"
    isFunction := false
    hasKernelMarker := false
    annotationsMentionKernelFunction := false
    kernelDescription := none
    docstring := some ("\n        Returns a dictionary of all methods in this class that have the @kernel_function annotation.\n        \n        Returns:\n            Dict[str, Callable]: Dictionary with function names as keys and function objects as values\n        ")
    params := [] }

/-- `ContentTools.generate_tools_json_doc` as a class member: also a
bound classmethod without the kernel marker. -/
def generateToolsJsonDocMember : Method :=
  { name := "generate_tools_json_doc"
    isFunction := false
    hasKernelMarker := false
    annotationsMentionKernelFunction := false
    kernelDescription := none
    docstring := some ("\n        Generate a JSON document containing information about all methods in the class.\n\n        Returns:\n            str: JSON string containing the methods\x27 information\n        ")
    params := [] }

/-- The member table of `ContentTools`, in declaration order. -/
def contentToolsMembers : List Method :=
  [extractTextMember, parseSectionsMember, summarizeTextMember,
   sharepointMember, extractTablesMember,
   getAllKernelFunctionsMember, generateToolsJsonDocMember]

/-- The tool entries `generate_tools_json_doc` renders for
`ContentTools`. -/
def contentToolsEntries : List ToolEntry :=
  generate_tools_list contentToolsAgent contentToolsMembers

/-! ## Concrete inputs used by counterexamples and witnesses -/

/-- A 70-character line of digits ending in a full stop. -/
def seventyDigits : List Char := List.replicate 69 '1' ++ ['.']

/-- A 500-character input text. -/
def text500 : String := String.mk (List.replicate 500 'a')

/-- A document whose second page raises inside `get_text()`. -/
def bugDoc : PdfDoc := ⟨[.ok "hello ", .raises "boom"]⟩

/-- A file system holding only `doc.pdf` = `bugDoc`. -/
def bugFs : FileSystem := fun p => if p = "doc.pdf" then some bugDoc else none

/-- A file system where every path resolves to a readable two-page
document. -/
def okFs : FileSystem := fun _ => some ⟨[.ok "page one ", .ok "page two"]⟩

/-- A file system with no files. -/
def emptyFs : FileSystem := fun _ => none

/-- Sum of `len(line) + 1` over a list of lines; splitting a text on
newlines always yields lines whose weights sum to `len(text) + 1`. -/
def sumLens (ls : List (List Char)) : Nat :=
  ls.foldr (fun l a => l.length + 1 + a) 0

/-! ## Helper lemmas -/

/-- Splitting on newlines never yields an empty list of lines. -/
theorem splitNl_ne_nil (l : List Char) : splitNl l ≠ [] := by
  cases l with
  | nil => simp [splitNl]
  | cons c cs =>
    simp only [splitNl]
    split
    · simp
    · split <;> simp

/-- The line weights of a newline split sum to the text length plus one. -/
theorem sumLens_splitNl (l : List Char) : sumLens (splitNl l) = l.length + 1 := by
  induction l with
  | nil => rfl
  | cons c cs ih =>
    by_cases hc : c = '\n'
    · simp [splitNl, hc, sumLens] at ih ⊢
      omega
    · rcases hsp : splitNl cs with _ | ⟨hd, tl⟩
      · exact absurd hsp (splitNl_ne_nil cs)
      · rw [hsp] at ih
        simp [splitNl, hc, hsp, sumLens] at ih ⊢
        omega

/-- Dropping a prefix never lengthens a list. -/
theorem dropWhile_length_le (p : Char → Bool) (l : List Char) :
    (l.dropWhile p).length ≤ l.length := by
  induction l with
  | nil => simp [List.dropWhile]
  | cons a l ih =>
    by_cases h : p a <;> simp [List.dropWhile, h] <;> omega

/-- Stripping never lengthens a line. -/
theorem trimChars_length_le (l : List Char) : (trimChars l).length ≤ l.length := by
  unfold trimChars
  simp only [List.length_reverse]
  exact le_trans (dropWhile_length_le _ _)
    (by simpa using dropWhile_length_le pyIsSpace l)

/-- The kept sections are exactly the document-order sections whose
content is long enough: `parseLoop` is the length filter of `docLoop`. -/
theorem parseLoop_eq_filter (minLen : Int) (ls : List (List Char)) (cur : PySection) :
    parseLoop minLen ls cur =
      (docLoop ls cur).filter (fun s => decide (minLen ≤ (s.content.length : Int))) := by
  induction ls generalizing cur with
  | nil =>
    by_cases h : minLen ≤ (cur.content.length : Int) <;>
      simp [parseLoop, docLoop, List.filter, h]
  | cons l ls ih =>
    by_cases he : (trimChars l).isEmpty
    · simp [parseLoop, docLoop, he, ih]
    · by_cases hh : is_heading (trimChars l)
      · by_cases hc : minLen ≤ (cur.content.length : Int) <;>
          simp [parseLoop, docLoop, he, hh, hc, ih, List.filter_cons]
      · simp [parseLoop, docLoop, he, hh, ih]

/-- When even the whole remaining input cannot reach the minimum length,
the loop keeps nothing. -/
theorem parseLoop_eq_nil_of_lt (minLen : Int) (ls : List (List Char)) (cur : PySection)
    (h : (cur.content.length : Int) + (sumLens ls : Int) < minLen) :
    parseLoop minLen ls cur = [] := by
  induction ls generalizing cur with
  | nil =>
    have hc : ¬ minLen ≤ (cur.content.length : Int) := by
      simp [sumLens] at h
      omega
    simp [parseLoop, hc]
  | cons l ls ih =>
    have hsum : sumLens (l :: ls) = l.length + 1 + sumLens ls := rfl
    rw [hsum] at h
    push_cast at h
    by_cases he : (trimChars l).isEmpty
    · simp only [parseLoop, he, if_true]
      apply ih
      push_cast
      omega
    · by_cases hh : is_heading (trimChars l)
      · have hc : ¬ minLen ≤ (cur.content.length : Int) := by omega
        simp only [parseLoop, he, hh, if_false, if_true, hc, List.nil_append]
        apply ih
        push_cast
        simp only [List.length_nil]
        omega
      · simp only [parseLoop, he, hh, if_false]
        apply ih
        have ht := trimChars_length_le l
        push_cast
        simp only [List.length_append, List.length_cons, List.length_nil]
        omega

/-- A filtered list satisfies its own filter predicate everywhere. -/
theorem filter_all_self {α : Type} (p : α → Bool) (l : List α) :
    (l.filter p).all p = true := by
  induction l with
  | nil => rfl
  | cons a l ih => by_cases h : p a <;> simp [List.filter_cons, h, ih]

/-- A list is a prefix of itself extended by anything. -/
theorem isPrefixOf_append_self (l t : List Char) : l.isPrefixOf (l ++ t) = true := by
  induction l with
  | nil => simp [List.isPrefixOf]
  | cons a l ih => simp [List.isPrefixOf, ih]

/-- Substring search finds a needle that occurs as an infix. -/
theorem containsSub_parts (needle pre post : List Char) :
    containsSub needle (pre ++ (needle ++ post)) = true := by
  induction pre with
  | nil =>
    simp only [List.nil_append]
    cases needle with
    | nil => cases post <;> simp [containsSub]
    | cons a as => simp [containsSub, isPrefixOf_append_self]
  | cons c pre ih => simp [containsSub, ih]

/-- `String.append` concatenates the underlying character lists. -/
theorem strDataAppend (a b : String) : (a ++ b).data = a.data ++ b.data := by
  cases a
  cases b
  rfl

/-! ## Claim theorems -/

/-- Claim C1 (code evidence): `extract_text_from_pdf` does NOT close the
document handle on every failure path.  On the concrete file system
where `doc.pdf` exists and its second page raises `boom` inside
`get_text()`, the exception is converted to the error string but
`doc.close()` is never reached, so the handle stays open; on the success
path the handle is closed.  This contradicts the claim that the handle
is closed before the return on every path. -/
theorem extract_text_leaks_handle_on_page_error :
    extract_text_from_pdf bugFs "doc.pdf" =
      ⟨"Error extracting text from PDF: boom", true, false⟩ ∧
    extract_text_from_pdf okFs "ok.pdf" = ⟨"page one page two", true, true⟩ := by
  constructor <;> rfl

/-- Claim C2 (counterexample): the text `"a."` has length 2 < 3, yet
`parse_sections("a.", 3)` is not the empty JSON list: the single body
line is stored as `"a.\n"` (the stripped line plus a re-appended
newline), whose length 3 reaches the threshold. -/
theorem parse_sections_short_text_cex :
    ("a.".length : Int) < 3 ∧
    parse_sections "a." 3 =
      "[\x7b\"title\": \"Introduction\", \"content\": \"a.\\n\"\x7d]" ∧
    parse_sections "a." 3 ≠ "[]" := by
  refine ⟨by decide, by decide, by decide⟩

/-- Claim C2 (amended): because each kept body line contributes its
stripped length plus one (for the re-appended newline), the content of
any section is at most `len(text) + 1`; hence whenever
`len(text) + 1 < min_section_length` the result is the JSON encoding of
the empty list.  (At `len(text) = min_section_length - 1` the bound is
tight: see the counterexample.) -/
theorem parse_sections_empty_when_below (text : String) (minLen : Int)
    (h : (text.length : Int) + 1 < minLen) :
    parse_sections text minLen = "[]" := by
  have hnil : parse_sections_list text minLen = [] := by
    apply parseLoop_eq_nil_of_lt
    have hs : sumLens (splitNl text.data) = text.data.length + 1 := sumLens_splitNl _
    have hlen : text.length = text.data.length := rfl
    have hc : introSection.content.length = 0 := rfl
    rw [hs, hc]
    rw [hlen] at h
    push_cast
    omega
  simp only [parse_sections, hnil]
  rfl

/-- Witness for the amended C2 theorem at `text = "ab"`,
`min_section_length = 4`. -/
theorem parse_sections_empty_when_below_witness :
    (("ab".length : Int) + 1 < 4) ∧ parse_sections "ab" 4 = "[]" :=
  ⟨by decide, parse_sections_empty_when_below "ab" 4 (by decide)⟩

/-- Claim C3 (counterexample): a 70-character digit string ending in a
full stop has no alphabetic characters, is already stripped, is shorter
than 100 characters — and is NOT classified as a heading: Python
`str.isupper()` is false on a string with no cased characters, so the
upper-case rule does not fire (and no other rule applies: it is 70 ≥ 60
characters long and ends with a full stop). -/
theorem no_alpha_line_not_heading_cex :
    seventyDigits.length = 70 ∧
    seventyDigits ≠ [] ∧
    seventyDigits.all (fun c => !c.isAlpha) = true ∧
    trimChars seventyDigits = seventyDigits ∧
    capsRule seventyDigits = false ∧
    is_heading seventyDigits = false := by
  refine ⟨by decide, by decide, by decide, by decide, by decide, by decide⟩

/-- Claim C3 (amended): a line with no cased characters is never
upper-case in the sense of the rule — `isupper` demands at least one
cased character, so the upper-case rule never fires on such lines and
their heading classification reduces to the colon, marker-prefix and
short-line rules. -/
theorem no_cased_line_never_upper (line : List Char)
    (h : line.all (fun c => !isCased c) = true) :
    pyIsUpper line = false ∧
    is_heading line = (colonRule line || markRule line || shortRule line) := by
  have hany : line.any isCased = false := by
    rw [List.any_eq_false]
    intro x hx
    have hc := List.all_eq_true.mp h x hx
    simpa using hc
  constructor
  · simp [pyIsUpper, hany]
  · simp [is_heading, capsRule, pyIsUpper, hany]

/-- Witness for the amended C3 theorem at the all-digit line `"123:"`,
which is a heading, but only through the colon rule. -/
theorem no_cased_line_never_upper_witness :
    ("123:".data.all (fun c => !isCased c) = true) ∧
    pyIsUpper "123:".data = false ∧
    is_heading "123:".data =
      (colonRule "123:".data || markRule "123:".data || shortRule "123:".data) :=
  ⟨by decide, (no_cased_line_never_upper "123:".data (by decide)).1,
    (no_cased_line_never_upper "123:".data (by decide)).2⟩

/-- Claim C4: the sections kept by `parse_sections` are exactly the
document-order sections (`docSections`, built by the same loop without
the length test) that pass the length filter — so every emitted section
has content length at least `min_section_length`, and the emitted
sections appear in the order their headings appear in the text. -/
theorem parse_sections_min_length_and_order (text : String) (minLen : Int) :
    parse_sections_list text minLen =
      (docSections text).filter (fun s => decide (minLen ≤ (s.content.length : Int))) ∧
    (parse_sections_list text minLen).all
      (fun s => decide (minLen ≤ (s.content.length : Int))) = true := by
  have hf := parseLoop_eq_filter minLen (splitNl text.data) introSection
  refine ⟨hf, ?_⟩
  have he : parse_sections_list text minLen =
      (docSections text).filter (fun s => decide (minLen ≤ (s.content.length : Int))) := hf
  rw [he]
  exact filter_all_self _ _

/-- Claim C5: `summarize_text` returns the text unchanged when its
length is within `max_length`, and otherwise returns the fixed
placeholder, which contains the decimal renderings of both the input
length and the limit. -/
theorem summarize_text_contract (text : String) (m : Int) :
    ((text.length : Int) ≤ m → summarize_text text m = text) ∧
    (m < (text.length : Int) →
      summarize_text text m =
        placeholderPre ++ pyIntStr (text.length : Int) ++ placeholderMid ++
          pyIntStr m ++ placeholderEnd ∧
      containsSubstr (summarize_text text m) (pyIntStr (text.length : Int)) = true ∧
      containsSubstr (summarize_text text m) (pyIntStr m) = true) := by
  constructor
  · intro h
    simp [summarize_text, h]
  · intro h
    have hn : ¬ (text.length : Int) ≤ m := by omega
    have he : summarize_text text m =
        placeholderPre ++ pyIntStr (text.length : Int) ++ placeholderMid ++
          pyIntStr m ++ placeholderEnd := by
      simp [summarize_text, hn]
    refine ⟨he, ?_, ?_⟩
    · rw [he]
      unfold containsSubstr
      rw [show (placeholderPre ++ pyIntStr (text.length : Int) ++ placeholderMid ++
            pyIntStr m ++ placeholderEnd).data =
          placeholderPre.data ++ ((pyIntStr (text.length : Int)).data ++
            (placeholderMid.data ++ ((pyIntStr m).data ++ placeholderEnd.data))) from by
        simp [strDataAppend, List.append_assoc]]
      exact containsSub_parts _ _ _
    · rw [he]
      unfold containsSubstr
      rw [show (placeholderPre ++ pyIntStr (text.length : Int) ++ placeholderMid ++
            pyIntStr m ++ placeholderEnd).data =
          (placeholderPre.data ++ ((pyIntStr (text.length : Int)).data ++
            placeholderMid.data)) ++ ((pyIntStr m).data ++ placeholderEnd.data) from by
        simp [strDataAppend, List.append_assoc]]
      exact containsSub_parts _ _ _

set_option maxRecDepth 4000 in
/-- Witness for C5: a 5-character input with `max_length = 10` comes
back unchanged; a 500-character input yields the placeholder containing
`"500"` and `"10"`. -/
theorem summarize_text_contract_witness :
    summarize_text "abcde" 10 = "abcde" ∧
    containsSubstr (summarize_text text500 10) "500" = true ∧
    containsSubstr (summarize_text text500 10) "10" = true := by
  refine ⟨(summarize_text_contract "abcde" 10).1 (by decide), ?_, ?_⟩
  · have h := ((summarize_text_contract text500 10).2 (by decide)).2.1
    rw [show pyIntStr (text500.length : Int) = "500" from by decide] at h
    exact h
  · have h := ((summarize_text_contract text500 10).2 (by decide)).2.2
    rw [show pyIntStr (10 : Int) = "10" from by decide] at h
    exact h

/-- Claim C6: when the path does not resolve to a file
(`os.path.exists` is false), `extract_text_from_pdf` returns the
descriptive not-found string without opening anything; the embedding is
a total function, reflecting that the code converts all faults to
strings and never raises. -/
theorem extract_missing_file_not_found (fs : FileSystem) (path : String)
    (h : fs path = none) :
    extract_text_from_pdf fs path =
      ⟨"Error: File not found at " ++ path, false, false⟩ := by
  simp [extract_text_from_pdf, h]

/-- Witness for C6 on the empty file system. -/
theorem extract_missing_file_not_found_witness :
    extract_text_from_pdf emptyFs "/tmp/missing.pdf" =
      ⟨"Error: File not found at /tmp/missing.pdf", false, false⟩ :=
  (extract_missing_file_not_found emptyFs "/tmp/missing.pdf" rfl).trans (by decide)

set_option maxRecDepth 8000 in
/-- Claim C7 (counterexample): the `parse_sections` entry generated by
`generate_tools_json_doc` describes no `file_path` argument at all — its
first parameter is `text` — so neither the key `file_path` nor the title
`File Path` occurs in the entry's arguments schema. -/
theorem parse_sections_entry_no_file_path_cex :
    (contentToolsEntries.filter (fun e => e.function == "parse_sections")).map
        (fun e => (containsSubstr e.arguments "file_path",
                   containsSubstr e.arguments "File Path"))
      = [(false, false)] := by
  decide

set_option maxRecDepth 8000 in
/-- Claim C7 (amended): the `parse_sections` entry — whose parameters
are `(text: str, min_section_length: int = 100)` — describes
`min_section_length` with type `"int"` and title `"Min Section Length"`,
and `text` with type `"str"` and title `"Text"`; the full arguments
string (a JSON dump with the double quotes replaced by apostrophes) is
computed exactly. -/
theorem parse_sections_entry_schema :
    (contentToolsEntries.filter (fun e => e.function == "parse_sections")).map
        (fun e => e.arguments)
      = [quoteToApos ("\x7b\"text\": \x7b\"description\": \"text\", \"title\": \"Text\", \"type\": \"str\"\x7d, \"min_section_length\": \x7b\"description\": \"min_section_length\", \"title\": \"Min Section Length\", \"type\": \"int\"\x7d\x7d")] := by
  decide

/-- Claim C8: for ANY member table (and agent name), the dictionary
built by `get_all_kernel_functions` never contains the key
`get_all_kernel_functions`, and the entries built by
`generate_tools_json_doc` never contain a `generate_tools_json_doc`
function entry: both generators skip themselves by name. -/
theorem self_reference_excluded (agent : String) (members : List Method) :
    "get_all_kernel_functions" ∉ (get_all_kernel_functions members).map Prod.fst ∧
    "generate_tools_json_doc" ∉
      (generate_tools_list agent members).map (fun e => e.function) := by
  constructor
  · intro hmem
    simp only [get_all_kernel_functions, List.map_map, List.mem_map, List.mem_filter,
      Function.comp] at hmem
    obtain ⟨m, ⟨_, hpred⟩, hname⟩ := hmem
    have hn : m.name = "get_all_kernel_functions" := by simpa using hname
    simp [kernelFnPred, hn] at hpred
  · intro hmem
    simp only [generate_tools_list, List.map_map, List.mem_map, List.mem_filter,
      Function.comp] at hmem
    obtain ⟨m, ⟨_, hpred⟩, hname⟩ := hmem
    have hn : m.name = "generate_tools_json_doc" := by simpa [mkEntry] using hname
    simp [toolPred, hn] at hpred

set_option maxRecDepth 2000 in
/-- Claim C9: `get_documents_from_sharepoint` is independent of the
credential arguments — any two calls with the same site and library
agree, whatever the username and password — and returns the fixed
three-document listing with the site URL and library name echoed back
(shown exactly on a concrete site/library with credentials supplied). -/
theorem sharepoint_credentials_ignored :
    (∀ site lib u p u2 p2,
      get_documents_from_sharepoint site lib u p =
        get_documents_from_sharepoint site lib u2 p2) ∧
    get_documents_from_sharepoint "https://contoso.sharepoint.com/sites/documents"
        "Technical Documentation" (some "alice") (some "hunter2") =
      "\x7b\"site\": \"https://contoso.sharepoint.com/sites/documents\", \"library\": \"Technical Documentation\", \"documents\": [\x7b\"name\": \"Product_Specifications.pdf\", \"size\": \"1.2 MB\", \"modified\": \"2025-07-30\"\x7d, \x7b\"name\": \"Technical_Manual.docx\", \"size\": \"3.5 MB\", \"modified\": \"2025-08-01\"\x7d, \x7b\"name\": \"Project_Plan.xlsx\", \"size\": \"0.8 MB\", \"modified\": \"2025-08-02\"\x7d]\x7d" :=
  ⟨fun _ _ _ _ _ _ => rfl, by decide⟩

set_option maxRecDepth 8000 in
/-- Claim C10: the tool entries of `generate_tools_json_doc` for
`ContentTools` are ordered alphabetically by function name (because
`inspect.getmembers` sorts members), which differs from the declaration
order of the five tools in the class body. -/
theorem tools_doc_alphabetical_order :
    contentToolsEntries.map (fun e => e.function)
      = ["extract_tables_from_pdf", "extract_text_from_pdf",
         "get_documents_from_sharepoint", "parse_sections", "summarize_text"] ∧
    (contentToolsMembers.filter (fun m => m.hasKernelMarker)).map (fun m => m.name)
      = ["extract_text_from_pdf", "parse_sections", "summarize_text",
         "get_documents_from_sharepoint", "extract_tables_from_pdf"] ∧
    (["extract_tables_from_pdf", "extract_text_from_pdf",
      "get_documents_from_sharepoint", "parse_sections", "summarize_text"] : List String)
      ≠ ["extract_text_from_pdf", "parse_sections", "summarize_text",
         "get_documents_from_sharepoint", "extract_tables_from_pdf"] := by
  refine ⟨by decide, by decide, by decide⟩
